import Mathlib

/-!
Verification development for the resilient text-generation orchestration
layer of the ai_tutor repository.

Shallow embedding conventions:
* Python strings are `List Char` (abbreviated `Str`); `"...".data` builds
  concrete values.  `str.lower` is `Char.toLower` mapped over the list,
  `str.strip` is `pyStrip`, `str.find(sub, start)` is `strFind`,
  `str.splitlines` is `pySplitlines` (splitting on the newline character,
  the only line terminator occurring in the modelled data).
* Python dicts produced by `json.loads` are association lists
  `List (Str × Json)` in insertion order; `Json` models parsed JSON values
  (numbers as `Int`, which is all the code ever inspects).
* `json.loads` itself is a parameter `jsonLoads : Str → Except Str Json`;
  `Except.error` models the `json.JSONDecodeError` exception.
* Code that catches exceptions is embedded with the exceptional outcomes as
  explicit values (`Except`, `CallOutcome.exn`), so every embedded function
  is total exactly because every exception path in the source is caught.
-/

namespace AiTutor

abbrev Str := List Char

/-- Python `s.strip()`: drop whitespace from both ends. -/
def pyStrip (s : Str) : Str :=
  ((s.dropWhile Char.isWhitespace).reverse.dropWhile Char.isWhitespace).reverse

/-- Helper for `strFind`: scan the suffixes of the text, returning the index
of the first suffix that `sub` is a prefix of. -/
def strFindAux (sub : Str) : Str → Nat → Option Nat
  | [], i => if sub.isPrefixOf ([] : Str) then some i else none
  | c :: rest, i =>
      if sub.isPrefixOf (c :: rest) then some i else strFindAux sub rest (i + 1)

/-- Python `text.find(sub, start)`: smallest index `i ≥ start` at which `sub`
occurs in `text` (`none` models the return value `-1`). -/
def strFind (text sub : Str) (start : Nat) : Option Nat :=
  if start ≤ text.length then strFindAux sub (text.drop start) start else none

/-- Python `sub in s` (substring containment). -/
def strContains (s pat : Str) : Bool :=
  (strFind s pat 0).isSome

/-- One claimed grammar error as handed to `_build_grammar_html`
(src/app/ui/main_window.py): a dict with optional `original` token,
`suggestion`, and untrusted numeric `start`/`end`. -/
structure ClaimedError where
  original : Option Str
  suggestion : Option Str
  start : Option Int
  «end» : Option Int
deriving DecidableEq

/-- One repaired span as stored in the `repaired` list of
`_build_grammar_html` (a dict with keys `start`, `end`, `suggestion`). -/
structure Span where
  start : Nat
  «end» : Nat
  suggestion : Str
deriving DecidableEq

/-- The local `clamp_span` of `_build_grammar_html` (main_window.py
1592-1605): treat `None` as 0, clamp both bounds into `[0, n]` and force
`end ≥ start`. -/
def clamp_span (n : Nat) (s0 e0 : Option Int) : Int × Int :=
  let s := s0.getD 0
  let e := e0.getD 0
  let s := if s < 0 then 0 else s
  let e := if e < 0 then 0 else e
  let s := if s > (n : Int) then (n : Int) else s
  let e := if e > (n : Int) then (n : Int) else e
  let e := if e < s then s else e
  (s, e)

/-- The token-matching step of `_build_grammar_html` (main_window.py
1620-1632): a non-empty token is searched case-insensitively starting at the
cursor; `none` when the token is empty or not found. -/
def tryToken (original : Str) (cursor : Nat) (token : Str) : Option Nat :=
  if token ≠ [] then
    strFind (original.map Char.toLower) (token.map Char.toLower) cursor
  else none

/-- The error-repair loop of `_build_grammar_html` (main_window.py
1607-1650): token matching first, clamped numeric fallback second, with a
monotone search cursor for repeated tokens. -/
def repairErrors (original : Str) : List ClaimedError → Nat → List Span
  | [], _ => []
  | err :: rest, cursor =>
    let n := original.length
    let token := pyStrip (err.original.getD [])
    let suggestion := err.suggestion.getD []
    match tryToken original cursor token with
    | some idx =>
        { start := idx, «end» := idx + token.length, suggestion := suggestion }
          :: repairErrors original rest (idx + token.length)
    | none =>
        let se := clamp_span n err.start err.«end»
        let s := se.1
        let e := if se.1 = se.2 ∧ se.1 < (n : Int) then se.1 + 1 else se.2
        if s < e then
          { start := s.toNat, «end» := e.toNat, suggestion := suggestion }
            :: repairErrors original rest (max cursor e.toNat)
        else repairErrors original rest cursor

/-- Stable insertion used to embed Python's stable `list.sort(key=start)`
(main_window.py 1656). -/
def insertSpan (a : Span) : List Span → List Span
  | [] => [a]
  | b :: l => if a.start ≤ b.start then a :: b :: l else b :: insertSpan a l

/-- Python `repaired.sort(key=lambda x: int(x["start"]))`: a stable sort by
`start` (the output of a stable sort by a key is unique, so any stable
algorithm embeds `list.sort`). -/
def sortSpans (l : List Span) : List Span :=
  l.foldr insertSpan []

/-- The overlap-removal walk of `_build_grammar_html` (main_window.py
1658-1683): keep a span only when it starts at or after the previous kept
span's end and is a non-degenerate in-bounds interval; exactly the kept
spans are wrapped in anchor markup in the rendered output. -/
def removeOverlaps (n : Nat) : List Span → Nat → List Span
  | [], _ => []
  | sp :: rest, pos =>
    if sp.start < pos then removeOverlaps n rest pos
    else if sp.«end» ≤ sp.start ∨ n < sp.start ∨ n < sp.«end» then
      removeOverlaps n rest pos
    else sp :: removeOverlaps n rest sp.«end»

/-- The span pipeline of `_build_grammar_html` (main_window.py 1577-1688):
the list of spans that end up highlighted in the rendered HTML, in output
order.  Empty text or an empty/unsalvageable error list renders the text
unannotated, i.e. emits no spans. -/
def reconcile (original : Str) (errors : List ClaimedError) : List Span :=
  if original = [] then []
  else if errors = [] then []
  else
    let repaired := repairErrors original errors 0
    if repaired = [] then []
    else removeOverlaps original.length (sortSpans repaired) 0

/-- Invariant threaded through `removeOverlaps`: every span starts at or
after `pos`, is non-degenerate, ends within the text, and the rest of the
list satisfies the same from its end. -/
def spansOK (n : Nat) : Nat → List Span → Prop
  | _, [] => True
  | pos, sp :: rest =>
      pos ≤ sp.start ∧ sp.start < sp.«end» ∧ sp.«end» ≤ n ∧ spansOK n sp.«end» rest

theorem removeOverlaps_ok (n : Nat) :
    ∀ (l : List Span) (pos : Nat), spansOK n pos (removeOverlaps n l pos) := by
  intro l
  induction l with
  | nil => intro pos; simp [removeOverlaps, spansOK]
  | cons sp rest ih =>
    intro pos
    simp only [removeOverlaps]
    split
    · exact ih pos
    · split
      · exact ih pos
      · rename_i hpos hok
        push_neg at hok
        exact ⟨Nat.le_of_not_lt hpos, hok.1, hok.2.2, ih sp.«end»⟩

theorem spansOK_mem {n : Nat} :
    ∀ {l : List Span} {pos : Nat}, spansOK n pos l →
      ∀ sp ∈ l, pos ≤ sp.start ∧ sp.start < sp.«end» ∧ sp.«end» ≤ n := by
  intro l
  induction l with
  | nil => intro pos _ sp hsp; cases hsp
  | cons hd rest ih =>
    intro pos h sp hsp
    obtain ⟨h1, h2, h3, h4⟩ := h
    rcases List.mem_cons.mp hsp with rfl | hmem
    · exact ⟨h1, h2, h3⟩
    · have := ih h4 sp hmem
      exact ⟨le_trans (le_of_lt (lt_of_le_of_lt h1 h2)) this.1, this.2.1, this.2.2⟩

theorem spansOK_pairwise {n : Nat} :
    ∀ {l : List Span} {pos : Nat}, spansOK n pos l →
      List.Pairwise (fun a b => a.«end» ≤ b.start) l := by
  intro l
  induction l with
  | nil => intro pos _; exact List.Pairwise.nil
  | cons hd rest ih =>
    intro pos h
    obtain ⟨_, _, _, h4⟩ := h
    exact List.Pairwise.cons (fun sp hsp => (spansOK_mem h4 sp hsp).1) (ih h4)

theorem reconcile_spansOK (original : Str) (errors : List ClaimedError) :
    spansOK original.length 0 (reconcile original errors) := by
  unfold reconcile
  split
  · trivial
  · split
    · trivial
    · show spansOK _ 0 (if repairErrors original errors 0 = [] then [] else _)
      split
      · trivial
      · exact removeOverlaps_ok original.length _ 0

/-- C1: for every original text and every list of claimed errors, the spans
that `_build_grammar_html` emits into the rendered output are sorted by
`start`, mutually non-overlapping (each kept span's start is at or after the
previous kept span's end), and every kept span satisfies
`0 ≤ start < end ≤ length` of the original text (`0 ≤ start` holds because
offsets are natural numbers after clamping). -/
theorem reconcile_spans_invariant (original : Str) (errors : List ClaimedError) :
    List.Pairwise (fun a b => a.start ≤ b.start) (reconcile original errors) ∧
    List.Pairwise (fun a b => a.«end» ≤ b.start) (reconcile original errors) ∧
    ∀ sp ∈ reconcile original errors,
      sp.start < sp.«end» ∧ sp.«end» ≤ original.length := by
  have hok := reconcile_spansOK original errors
  have hpair := spansOK_pairwise hok
  have hmem := fun sp hsp => (spansOK_mem hok sp hsp).2
  refine ⟨?_, hpair, hmem⟩
  exact hpair.imp_of_mem fun {a b} ha _ hab =>
    le_trans (le_of_lt (hmem a ha).1) hab

theorem reconcile_spans_invariant_witness :
    List.Pairwise (fun a b => a.start ≤ b.start)
      (reconcile "I goed to school".data
        [{ original := some "goed".data, suggestion := some "went".data,
           start := some 0, «end» := some 0 }]) ∧
    List.Pairwise (fun a b => a.«end» ≤ b.start)
      (reconcile "I goed to school".data
        [{ original := some "goed".data, suggestion := some "went".data,
           start := some 0, «end» := some 0 }]) ∧
    ∀ sp ∈ reconcile "I goed to school".data
        [{ original := some "goed".data, suggestion := some "went".data,
           start := some 0, «end» := some 0 }],
      sp.start < sp.«end» ∧ sp.«end» ≤ ("I goed to school".data).length :=
  reconcile_spans_invariant "I goed to school".data
    [{ original := some "goed".data, suggestion := some "went".data,
       start := some 0, «end» := some 0 }]

/-- C4: on text `"I goed to school"` with the single claimed error
`{original: "goed", suggestion: "went", start: 0, end: 0}`, the reconciler
emits exactly one span `[2, 6)` whose substring of the original text is
`"goed"`; the bogus numeric offsets are ignored because the token search
succeeds. -/
theorem reconcile_goed_example :
    reconcile "I goed to school".data
        [{ original := some "goed".data, suggestion := some "went".data,
           start := some 0, «end» := some 0 }] =
      [{ start := 2, «end» := 6, suggestion := "went".data }] ∧
    (("I goed to school".data.drop 2).take 4 = "goed".data) := by
  decide

/-- C5: on text `"the cat and the dog"` with two claimed errors both
carrying the token `"the"`, the reconciler emits two distinct
non-overlapping spans at the first and the second occurrence of `"the"`, in
left-to-right order, because the search cursor starts at 0 and advances past
each matched occurrence. -/
theorem reconcile_repeated_token_example :
    reconcile "the cat and the dog".data
        [{ original := some "the".data, suggestion := some "a".data,
           start := none, «end» := none },
         { original := some "the".data, suggestion := some "b".data,
           start := none, «end» := none }] =
      [{ start := 0, «end» := 3, suggestion := "a".data },
       { start := 12, «end» := 15, suggestion := "b".data }] ∧
    (("the cat and the dog".data.drop 0).take 3 = "the".data) ∧
    (("the cat and the dog".data.drop 12).take 3 = "the".data) := by
  decide

/-! ## JSON values and Python dict operations

`Json` models the values produced by `json.loads`; objects are association
lists in insertion order (CPython dicts preserve insertion order, and
`json.loads` yields unique keys). -/

inductive Json where
  | null
  | bool (b : Bool)
  | num (n : Int)
  | str (s : Str)
  | arr (elems : List Json)
  | obj (fields : List (Str × Json))

/-- Python dict lookup `d.get(k)` / `d[k]` on a parsed JSON object. -/
def dictLookup (d : List (Str × Json)) (k : Str) : Option Json :=
  match d with
  | [] => none
  | (k', v) :: rest => if k' = k then some v else dictLookup rest k

/-- Python `d[k] = v`: replace in place when the key exists, else append. -/
def dictSet (d : List (Str × Json)) (k : Str) (v : Json) : List (Str × Json) :=
  match d with
  | [] => [(k, v)]
  | (k', v') :: rest =>
      if k' = k then (k', v) :: rest else (k', v') :: dictSet rest k v

/-- Python `d.setdefault(k, v)`: append only when the key is missing. -/
def dictSetdefault (d : List (Str × Json)) (k : Str) (v : Json) :
    List (Str × Json) :=
  if (dictLookup d k).isSome then d else d ++ [(k, v)]

/-- Python truthiness of a parsed JSON value (`if not cats: ...`). -/
def jsonFalsy : Json → Bool
  | .null => true
  | .bool b => !b
  | .num n => n = 0
  | .str s => s.isEmpty
  | .arr l => l.isEmpty
  | .obj l => l.isEmpty

/-! ## Code-fence stripping (`GeminiEngine._strip_code_fence`) -/

/-- Split a string at newline characters, keeping empty segments (the
behaviour of Python `str.split("\n")`; Python `splitlines` is derived in
`pySplitlines`). -/
def splitNl : Str → List Str
  | [] => [[]]
  | c :: rest =>
    if c = '\n' then [] :: splitNl rest
    else
      match splitNl rest with
      | [] => [[c]]
      | l :: ls => (c :: l) :: ls

/-- Python `"\n".join(lines)` over the segments. -/
def joinNl : List Str → Str
  | [] => []
  | [l] => l
  | l :: ls => l ++ '\n' :: joinNl ls

/-- Python `s.splitlines()` for strings whose only line terminator is the
newline character: like splitting on newline but without a trailing empty
segment, and empty input gives no lines. -/
def pySplitlines (s : Str) : List Str :=
  if s = [] then []
  else if s.getLast? = some '\n' then (splitNl s).dropLast
  else splitNl s

/-- The fence marker `"```"`. -/
def fenceMarker : Str := "```".data

/-- Python `if len(lines) >= 2 and lines[0].startswith("```"): lines = lines[1:]`
(gemini_engine.py 352-353). -/
def stripFirstFence (lines : List Str) : List Str :=
  if 2 ≤ lines.length ∧ fenceMarker.isPrefixOf lines.headI then lines.drop 1
  else lines

/-- Python `if lines and lines[-1].startswith("```"): lines = lines[:-1]`
(gemini_engine.py 354-355). -/
def stripLastFence (lines : List Str) : List Str :=
  if lines ≠ [] ∧ fenceMarker.isPrefixOf (lines.getLast?.getD []) then
    lines.dropLast
  else lines

/-- Embeds `GeminiEngine._strip_code_fence` (gemini_engine.py 346-356): strip the
text; when it begins with a fence, drop the first fence line (if there are
at least two lines) and the last line when that starts with a fence, rejoin
and strip again. -/
def strip_code_fence (text : Str) : Str :=
  if fenceMarker.isPrefixOf (pyStrip text) then
    pyStrip (joinNl (stripLastFence (stripFirstFence (pySplitlines (pyStrip text)))))
  else pyStrip text

/-! ## Grammar-category extraction (`_normalise_categories`, `_analyse_grammar`) -/

/-- Embeds `GeminiEngine.GRAMMAR_CATEGORIES` (gemini_engine.py 26-38). -/
def GRAMMAR_CATEGORIES : List Str :=
  ["verb_tense".data, "subject_verb_agreement".data, "articles".data,
   "prepositions".data, "word_order".data, "plural_singular".data,
   "pronouns".data, "vocabulary_choice".data, "spelling".data,
   "punctuation".data, "other".data]

/-- Python `c.strip().lower().replace(" ", "_")` on one category candidate. -/
def pyNormCat (c : Str) : Str :=
  ((pyStrip c).map Char.toLower).map fun ch => if ch = ' ' then '_' else ch

/-- First-seen-order deduplication, Python `list(dict.fromkeys(out))`. -/
def dedupFirstAux (seen : List Str) : List Str → List Str
  | [] => []
  | x :: xs =>
      if x ∈ seen then dedupFirstAux seen xs
      else x :: dedupFirstAux (x :: seen) xs

def dedupFirst (l : List Str) : List Str := dedupFirstAux [] l

/-- The per-candidate loop body of `_normalise_categories`: normalize each
string, keep only known categories, deduplicate preserving first-seen
order. -/
def normCatList (cs : List Str) : List Str :=
  dedupFirst ((cs.map pyNormCat).filter fun c => c ∈ GRAMMAR_CATEGORIES)

/-- Embeds `GeminiEngine._normalise_categories` (gemini_engine.py 331-344) applied
to the value of `obj.get("grammar_categories")` (`none` = key missing, hence
Python `None`).  Falsy values yield no categories; a string is wrapped in a
singleton list; iterating a list keeps its string elements and iterating a
dict yields its keys; iterating a truthy number or boolean raises
`TypeError`, modelled as `Except.error`. -/
def normalise_categories : Option Json → Except Str (List Str)
  | none => .ok []
  | some j =>
    if jsonFalsy j then .ok []
    else
      match j with
      | .str s => .ok (normCatList [s])
      | .arr xs =>
          .ok (normCatList (xs.filterMap fun x =>
            match x with
            | .str s => some s
            | _ => none))
      | .obj fields => .ok (normCatList (fields.map Prod.fst))
      | _ => .error "TypeError: object is not iterable".data

/-- The result dict of `_analyse_grammar`: either key may be absent. -/
structure GrammarInfo where
  grammar_categories : Option (List Str)
  grammar_comment : Option Str
deriving DecidableEq

def emptyAnalysis : GrammarInfo := { grammar_categories := none, grammar_comment := none }

/-- The `try` block of `_analyse_grammar` (gemini_engine.py 380-391): strip
fences, parse JSON (a parse failure raises), read `grammar_categories`
through `_normalise_categories` (which may raise `TypeError`), and accept
`short_comment` only when it is a string with non-whitespace content,
truncated to 120 characters.  Calling `.get` on a non-object raises
`AttributeError`. -/
def analyse_body (jsonLoads : Str → Except Str Json) (response : Str) :
    Except Str GrammarInfo :=
  match jsonLoads (strip_code_fence response) with
  | .error e => .error e
  | .ok (Json.obj fields) =>
    match normalise_categories (dictLookup fields "grammar_categories".data) with
    | .error e => .error e
    | .ok cats =>
        .ok { grammar_categories := if cats.isEmpty then none else some cats
              grammar_comment :=
                match dictLookup fields "short_comment".data with
                | some (Json.str s) =>
                    if (pyStrip s).isEmpty then none
                    else some ((pyStrip s).take 120)
                | _ => none }
  | .ok _ => .error "AttributeError".data

/-- The whole parsing/validation stage of `_analyse_grammar` (gemini_engine.py
380-393): any exception in the `try` block is caught and converted to an
empty analysis. -/
def analyse_extract (jsonLoads : Str → Except Str Json) (response : Str) :
    GrammarInfo :=
  match analyse_body jsonLoads response with
  | .ok info => info
  | .error _ => emptyAnalysis

/-! ## Providers, failover and rate limiting (`GeminiEngine`)

Outbound HTTP calls are modelled by their observable outcome
(`CallOutcome`) supplied in a `CallEnv`, and each embedded operation also
returns the ordered trace of rate-limiter waits and HTTP attempts it
performs, so that call-ordering claims can be stated. -/

inductive Provider where
  | groq
  | gemini
deriving DecidableEq

inductive Event where
  | rateLimit
  | http (p : Provider)
deriving DecidableEq

/-- Outcome of one `requests.post`: a 200 response whose body yields `raw`
text, a non-200 status code, or a raised exception (timeout, transport
error, or a body of unexpected shape while extracting the text). -/
inductive CallOutcome where
  | reply (raw : Str)
  | status (code : Nat)
  | exn (msg : Str)
deriving DecidableEq

structure CallEnv where
  use_groq : Bool
  use_gemini : Bool
  groqCall : CallOutcome
  geminiCall : CallOutcome
deriving DecidableEq

/-- The mutable engine state relevant to failover: `self.groq_failed_count`
(gemini_engine.py 77). -/
structure EngineState where
  groq_failed_count : Nat
deriving DecidableEq

/-- Embeds `self.max_failures_before_switch = 3` (gemini_engine.py 78). -/
def max_failures_before_switch : Nat := 3

/-- Embeds `self.min_interval = 1.0` (gemini_engine.py 76), in seconds. -/
def min_interval : ℚ := 1

/-- Embeds `GeminiEngine._rate_limit` (gemini_engine.py 290-295), as a function of
the stored `last_request_time` and the current clock: sleep until
`min_interval` has elapsed, then record the call time as the new
`last_request_time`.  Returns `(call time, new last_request_time)`. -/
def rate_limit (last now : ℚ) : ℚ × ℚ :=
  let elapsed := now - last
  let callTime := if elapsed < min_interval then now + (min_interval - elapsed) else now
  (callTime, callTime)

/-- Embeds `GeminiEngine._try_groq` (gemini_engine.py 246-270): rate-limit, post,
and turn every failure into an inline `"[Groq error ...]"` marker string. -/
def try_groq (env : CallEnv) : Str × List Event :=
  match env.groqCall with
  | .reply raw => (raw, [.rateLimit, .http .groq])
  | .status code =>
      ("[Groq error ".data ++ (Nat.repr code).data ++ "]".data,
       [.rateLimit, .http .groq])
  | .exn msg =>
      ("[Groq error: ".data ++ msg ++ "]".data, [.rateLimit, .http .groq])

/-- Embeds `GeminiEngine._try_gemini` (gemini_engine.py 272-288): rate-limit, post,
and turn every failure into an inline `"[Gemini error ...]"` marker. -/
def try_gemini (env : CallEnv) : Str × List Event :=
  match env.geminiCall with
  | .reply raw => (raw, [.rateLimit, .http .gemini])
  | .status 429 =>
      ("[Gemini error 429: Quota exceeded]".data, [.rateLimit, .http .gemini])
  | .status code =>
      ("[Gemini error ".data ++ (Nat.repr code).data ++ "]".data,
       [.rateLimit, .http .gemini])
  | .exn msg =>
      ("[Gemini error: ".data ++ msg ++ "]".data, [.rateLimit, .http .gemini])

/-- The failure marker `ask` tests with `"[Groq error" in reply`
(gemini_engine.py 100). -/
def groqErrorMarker : Str := "[Groq error".data

structure AskResult where
  reply : Str
  state : EngineState
  trace : List Event
deriving DecidableEq

/-- The reply-acquisition block of `GeminiEngine.ask` (gemini_engine.py
96-116): try Groq while it is healthy, count a failure and fall back to
Gemini at most once, reset the failure count on a Groq success, and use
Gemini (or a hard error marker) when Groq is unavailable or demoted. -/
def ask_failover (env : CallEnv) (st : EngineState) : AskResult :=
  if env.use_groq = true ∧ st.groq_failed_count < max_failures_before_switch then
    let r := try_groq env
    if strContains r.1 groqErrorMarker then
      let st' : EngineState := { groq_failed_count := st.groq_failed_count + 1 }
      if env.use_gemini then
        let r2 := try_gemini env
        { reply := r2.1, state := st', trace := r.2 ++ r2.2 }
      else { reply := r.1, state := st', trace := r.2 }
    else { reply := r.1, state := { groq_failed_count := 0 }, trace := r.2 }
  else if env.use_gemini then
    let r := try_gemini env
    { reply := r.1, state := st, trace := r.2 }
  else { reply := "[ERROR: No AI service available]".data, state := st, trace := [] }

/-- Embeds `GeminiEngine._analyse_grammar` (gemini_engine.py 358-393): pick a
provider with the same health test as `ask`, then run the extraction stage;
the failure count is read but never written here. -/
def analyse_grammar (env : CallEnv) (jsonLoads : Str → Except Str Json)
    (st : EngineState) : GrammarInfo × List Event :=
  if env.use_groq = true ∧ st.groq_failed_count < max_failures_before_switch then
    let r := try_groq env
    (analyse_extract jsonLoads r.1, r.2)
  else if env.use_gemini then
    let r := try_gemini env
    (analyse_extract jsonLoads r.1, r.2)
  else (emptyAnalysis, [])

/-! ## Grammar correction (`GeminiEngine.check_grammar`) -/

/-- Embeds `GeminiEngine._grammar_error_response` (gemini_engine.py 233-240). -/
def grammar_error_response (text err : Str) : List (Str × Json) :=
  [("original".data, Json.str text), ("corrected".data, Json.str text),
   ("errors".data, Json.arr []), ("error".data, Json.str err)]

/-- The validation step of `check_grammar` (gemini_engine.py 222-226) on a
parsed JSON value: force `errors` to a list, default `original` and
`corrected` to the input text.  Validating a non-object raises `TypeError`,
which the surrounding `except` turns into the safe error response. -/
def validate_grammar_json (text : Str) : Json → List (Str × Json)
  | .obj fields =>
      let d :=
        match dictLookup fields "errors".data with
        | some (Json.arr _) => fields
        | _ => dictSet fields "errors".data (Json.arr [])
      let d := dictSetdefault d "original".data (Json.str text)
      dictSetdefault d "corrected".data (Json.str text)
  | _ => grammar_error_response text "Parse error: TypeError".data

/-- The parse-and-validate tail of `check_grammar` (gemini_engine.py
218-231): strip fences, `json.loads` (a parse failure raises and is caught
by the surrounding `except`, producing the safe error response), then
validate. -/
def parse_grammar_raw (jsonLoads : Str → Except Str Json) (text raw : Str) :
    List (Str × Json) :=
  match jsonLoads (strip_code_fence raw) with
  | .error e => grammar_error_response text ("Parse error: ".data ++ e)
  | .ok j => validate_grammar_json text j

/-- The raw provider text that reaches the parsing stage of
`check_grammar`, when any does (mirrors the provider branching of
gemini_engine.py 176-216). -/
def provider_raw (env : CallEnv) (st : EngineState) : Option Str :=
  if env.use_groq = true ∧ st.groq_failed_count < max_failures_before_switch then
    match env.groqCall with
    | .reply raw => some raw
    | .status _ =>
        if env.use_gemini then
          match env.geminiCall with
          | .reply raw => some raw
          | _ => none
        else none
    | .exn _ => none
  else if env.use_gemini then
    match env.geminiCall with
    | .reply raw => some raw
    | _ => none
  else none

/-- Embeds `GeminiEngine.check_grammar` (gemini_engine.py 136-231): try Groq while
healthy, fall back to Gemini on a non-200 Groq status, parse and validate
the reply, and catch every exception into the safe error response.  The
posts here are issued directly, so the trace records no rate-limiter
events, and `groq_failed_count` is neither read back nor written. -/
def check_grammar (env : CallEnv) (jsonLoads : Str → Except Str Json)
    (text : Str) (st : EngineState) : List (Str × Json) × List Event :=
  if env.use_groq = true ∧ st.groq_failed_count < max_failures_before_switch then
    match env.groqCall with
    | .reply raw => (parse_grammar_raw jsonLoads text raw, [.http .groq])
    | .status code =>
        if env.use_gemini then
          match env.geminiCall with
          | .reply raw =>
              (parse_grammar_raw jsonLoads text raw, [.http .groq, .http .gemini])
          | .status c2 =>
              (grammar_error_response text ("Error ".data ++ (Nat.repr c2).data),
               [.http .groq, .http .gemini])
          | .exn m =>
              (grammar_error_response text ("Parse error: ".data ++ m),
               [.http .groq, .http .gemini])
        else
          (grammar_error_response text ("Groq error ".data ++ (Nat.repr code).data),
           [.http .groq])
    | .exn m =>
        (grammar_error_response text ("Parse error: ".data ++ m), [.http .groq])
  else if env.use_gemini then
    match env.geminiCall with
    | .reply raw => (parse_grammar_raw jsonLoads text raw, [.http .gemini])
    | .status c =>
        (grammar_error_response text ("Error ".data ++ (Nat.repr c).data),
         [.http .gemini])
    | .exn m =>
        (grammar_error_response text ("Parse error: ".data ++ m), [.http .gemini])
  else (grammar_error_response text "No AI service available".data, [])

/-! ## Trace predicates -/

/-- The providers attempted in a trace, in order. -/
def httpCalls (tr : List Event) : List Provider :=
  tr.filterMap fun e =>
    match e with
    | .http p => some p
    | .rateLimit => none

/-- The first provider attempted in a trace, if any. -/
def firstHttp (tr : List Event) : Option Provider :=
  (httpCalls tr).head?

/-- Helper: the flag records whether the previous event was a rate-limiter
wait. -/
def httpGuardedAux : Bool → List Event → Bool
  | _, [] => true
  | ok, .http _ :: rest => ok && httpGuardedAux false rest
  | _, .rateLimit :: rest => httpGuardedAux true rest

/-- Every HTTP attempt in the trace is immediately preceded by a
rate-limiter wait. -/
def httpGuarded (tr : List Event) : Bool :=
  httpGuardedAux false tr

/-! ## Helper lemmas -/

theorem dictLookup_append (d1 d2 : List (Str × Json)) (k : Str) :
    dictLookup (d1 ++ d2) k =
      match dictLookup d1 k with
      | some v => some v
      | none => dictLookup d2 k := by
  induction d1 with
  | nil => simp [dictLookup]
  | cons hd rest ih =>
    obtain ⟨k', v⟩ := hd
    by_cases h : k' = k
    · simp [dictLookup, h]
    · simp [dictLookup, h, ih]

theorem dictLookup_dictSet_ne (d : List (Str × Json)) (k : Str) (v : Json)
    (k' : Str) (h : k ≠ k') :
    dictLookup (dictSet d k v) k' = dictLookup d k' := by
  induction d with
  | nil => simp [dictSet, dictLookup, h]
  | cons hd rest ih =>
    obtain ⟨k0, v0⟩ := hd
    by_cases h0 : k0 = k
    · subst h0
      simp [dictSet, dictLookup, h]
    · simp [dictSet, dictLookup, h0, ih]

theorem dictLookup_dictSetdefault_ne (d : List (Str × Json)) (k : Str)
    (v : Json) (k' : Str) (h : k ≠ k') :
    dictLookup (dictSetdefault d k v) k' = dictLookup d k' := by
  unfold dictSetdefault
  split
  · rfl
  · rw [dictLookup_append]
    cases hd : dictLookup d k' with
    | some v' => rfl
    | none => simp [dictLookup, h]

theorem grammar_error_response_fields (text err : Str) :
    dictLookup (grammar_error_response text err) "original".data = some (Json.str text) ∧
    dictLookup (grammar_error_response text err) "corrected".data = some (Json.str text) ∧
    dictLookup (grammar_error_response text err) "errors".data = some (Json.arr []) ∧
    dictLookup (grammar_error_response text err) "error".data = some (Json.str err) := by
  have h1 : ("original".data : Str) ≠ "corrected".data := by decide
  have h2 : ("original".data : Str) ≠ "errors".data := by decide
  have h3 : ("original".data : Str) ≠ "error".data := by decide
  have h4 : ("corrected".data : Str) ≠ "errors".data := by decide
  have h5 : ("corrected".data : Str) ≠ "error".data := by decide
  have h6 : ("errors".data : Str) ≠ "error".data := by decide
  refine ⟨?_, ?_, ?_, ?_⟩ <;>
    simp [grammar_error_response, dictLookup, h1, h2, h3, h4, h5, h6]

/-- The lookup of the `error` key on the success path of `check_grammar` is
exactly the `error` field of the provider's parsed object: the validation
step only touches the keys `errors`, `original` and `corrected`. -/
theorem validate_grammar_json_error_key (text : Str) (fields : List (Str × Json)) :
    dictLookup (validate_grammar_json text (Json.obj fields)) "error".data =
      dictLookup fields "error".data := by
  have h1 : ("errors".data : Str) ≠ "error".data := by decide
  have h2 : ("original".data : Str) ≠ "error".data := by decide
  have h3 : ("corrected".data : Str) ≠ "error".data := by decide
  unfold validate_grammar_json
  rw [dictLookup_dictSetdefault_ne _ _ _ _ h3, dictLookup_dictSetdefault_ne _ _ _ _ h2]
  split
  · rfl
  · exact dictLookup_dictSet_ne _ _ _ _ h1

theorem try_groq_trace (env : CallEnv) :
    (try_groq env).2 = [Event.rateLimit, Event.http Provider.groq] := by
  unfold try_groq
  split <;> rfl

theorem try_gemini_trace (env : CallEnv) :
    (try_gemini env).2 = [Event.rateLimit, Event.http Provider.gemini] := by
  unfold try_gemini
  split <;> rfl

/-- Every call of `check_grammar` either returns the safe error response for
some message, or reaches the parse stage, parses the raw reply to a JSON
object and returns the validated object. -/
theorem check_grammar_shape (env : CallEnv) (jsonLoads : Str → Except Str Json)
    (text : Str) (st : EngineState) :
    (∃ msg, (check_grammar env jsonLoads text st).1 = grammar_error_response text msg) ∨
    (∃ raw fields, provider_raw env st = some raw ∧
      jsonLoads (strip_code_fence raw) = Except.ok (Json.obj fields) ∧
      (check_grammar env jsonLoads text st).1 =
        validate_grammar_json text (Json.obj fields)) := by
  have parse_case : ∀ raw, provider_raw env st = some raw →
      (∃ msg, parse_grammar_raw jsonLoads text raw = grammar_error_response text msg) ∨
      (∃ fields, jsonLoads (strip_code_fence raw) = Except.ok (Json.obj fields) ∧
        parse_grammar_raw jsonLoads text raw = validate_grammar_json text (Json.obj fields)) := by
    intro raw _
    unfold parse_grammar_raw
    cases hp : jsonLoads (strip_code_fence raw) with
    | error e => exact Or.inl ⟨"Parse error: ".data ++ e, rfl⟩
    | ok j =>
      cases j with
      | obj fields => exact Or.inr ⟨fields, rfl, rfl⟩
      | null => exact Or.inl ⟨"Parse error: TypeError".data, rfl⟩
      | bool b => exact Or.inl ⟨"Parse error: TypeError".data, rfl⟩
      | num n => exact Or.inl ⟨"Parse error: TypeError".data, rfl⟩
      | str s => exact Or.inl ⟨"Parse error: TypeError".data, rfl⟩
      | arr l => exact Or.inl ⟨"Parse error: TypeError".data, rfl⟩
  unfold check_grammar provider_raw
  by_cases h1 : env.use_groq = true ∧ st.groq_failed_count < max_failures_before_switch
  · rw [if_pos h1, if_pos h1]
    cases hg : env.groqCall with
    | reply raw =>
      rcases parse_case raw (by unfold provider_raw; rw [if_pos h1, hg]) with ⟨msg, hm⟩ | ⟨fields, hf, hv⟩
      · exact Or.inl ⟨msg, hm⟩
      · exact Or.inr ⟨raw, fields, rfl, hf, hv⟩
    | status code =>
      dsimp only
      by_cases h2 : env.use_gemini = true
      · rw [if_pos h2, if_pos h2]
        cases hgem : env.geminiCall with
        | reply raw =>
          rcases parse_case raw (by unfold provider_raw; rw [if_pos h1, hg, if_pos h2, hgem]) with ⟨msg, hm⟩ | ⟨fields, hf, hv⟩
          · exact Or.inl ⟨msg, hm⟩
          · exact Or.inr ⟨raw, fields, rfl, hf, hv⟩
        | status c2 => exact Or.inl ⟨_, rfl⟩
        | exn m => exact Or.inl ⟨_, rfl⟩
      · rw [if_neg h2, if_neg h2]
        exact Or.inl ⟨_, rfl⟩
    | exn m => exact Or.inl ⟨_, rfl⟩
  · rw [if_neg h1, if_neg h1]
    by_cases h2 : env.use_gemini = true
    · rw [if_pos h2, if_pos h2]
      cases hgem : env.geminiCall with
      | reply raw =>
        rcases parse_case raw (by unfold provider_raw; rw [if_neg h1, if_pos h2, hgem]) with ⟨msg, hm⟩ | ⟨fields, hf, hv⟩
        · exact Or.inl ⟨msg, hm⟩
        · exact Or.inr ⟨raw, fields, rfl, hf, hv⟩
      | status c => exact Or.inl ⟨_, rfl⟩
      | exn m => exact Or.inl ⟨_, rfl⟩
    · rw [if_neg h2, if_neg h2]
      exact Or.inl ⟨_, rfl⟩

/-- C2: whenever the provider's raw response cannot be parsed as JSON (the
modelled `json.loads` raises), `check_grammar` returns a dict whose
`original` and `corrected` fields equal the input text and whose error-span
list is empty.  The exception never reaches the caller: every exceptional
outcome is an explicit value in the embedding and every such value flows
into `_grammar_error_response`, so `check_grammar` is a total function. -/
theorem check_grammar_parse_failure_degrades
    (env : CallEnv) (st : EngineState) (jsonLoads : Str → Except Str Json)
    (text raw e : Str)
    (hraw : provider_raw env st = some raw)
    (hparse : jsonLoads (strip_code_fence raw) = Except.error e) :
    dictLookup (check_grammar env jsonLoads text st).1 "original".data
      = some (Json.str text) ∧
    dictLookup (check_grammar env jsonLoads text st).1 "corrected".data
      = some (Json.str text) ∧
    dictLookup (check_grammar env jsonLoads text st).1 "errors".data
      = some (Json.arr []) := by
  rcases check_grammar_shape env jsonLoads text st with ⟨msg, hm⟩ | ⟨raw', fields, hr', hok, _⟩
  · rw [hm]
    obtain ⟨f1, f2, f3, _⟩ := grammar_error_response_fields text msg
    exact ⟨f1, f2, f3⟩
  · rw [hraw] at hr'
    injection hr' with h
    subst h
    rw [hparse] at hok
    cases hok

theorem check_grammar_parse_failure_degrades_witness :
    dictLookup (check_grammar ⟨true, false, CallOutcome.reply "zzz".data, CallOutcome.status 0⟩
        (fun _ => Except.error "bad syntax".data) "hi".data ⟨0⟩).1 "original".data
      = some (Json.str "hi".data) ∧
    dictLookup (check_grammar ⟨true, false, CallOutcome.reply "zzz".data, CallOutcome.status 0⟩
        (fun _ => Except.error "bad syntax".data) "hi".data ⟨0⟩).1 "corrected".data
      = some (Json.str "hi".data) ∧
    dictLookup (check_grammar ⟨true, false, CallOutcome.reply "zzz".data, CallOutcome.status 0⟩
        (fun _ => Except.error "bad syntax".data) "hi".data ⟨0⟩).1 "errors".data
      = some (Json.arr []) :=
  check_grammar_parse_failure_degrades _ _ _ "hi".data "zzz".data "bad syntax".data rfl rfl

/-- C7: any exception in the parsing/validation stage of `_analyse_grammar`
(fence stripping never raises; JSON parse failures and field-validation
type errors are the `Except.error` outcomes of `analyse_body`) is caught,
and the result degrades to the empty analysis: no categories and no
comment.  The extractor is a total function, so nothing propagates to the
caller. -/
theorem analyse_extract_catches (jsonLoads : Str → Except Str Json) (response : Str) :
    (∀ e, analyse_body jsonLoads response = Except.error e →
      analyse_extract jsonLoads response = emptyAnalysis) ∧
    (∀ e, jsonLoads (strip_code_fence response) = Except.error e →
      analyse_extract jsonLoads response = emptyAnalysis) := by
  constructor
  · intro e h
    unfold analyse_extract
    rw [h]
  · intro e h
    have hb : analyse_body jsonLoads response = Except.error e := by
      unfold analyse_body
      rw [h]
    unfold analyse_extract
    rw [hb]

theorem analyse_extract_catches_witness :
    analyse_extract (fun _ => Except.error "boom".data) "this is not json".data
      = emptyAnalysis :=
  (analyse_extract_catches (fun _ => Except.error "boom".data) "this is not json".data).2
    "boom".data rfl

/-- C6: from a fresh state (failure count 0), one call of the failover
block of `ask` in which Groq fails (its reply carries the failure marker)
and Gemini succeeds attempts Groq once, fails over once to Gemini, makes no
further attempts, returns Gemini's reply, and leaves the Groq failure count
at 1. -/
theorem single_failover_hop (env : CallEnv) (raw : Str)
    (hg : env.use_groq = true) (hge : env.use_gemini = true)
    (hfail : strContains (try_groq env).1 groqErrorMarker = true)
    (hsucc : env.geminiCall = CallOutcome.reply raw) :
    ask_failover env ⟨0⟩ =
      { reply := raw, state := ⟨1⟩,
        trace := [Event.rateLimit, Event.http Provider.groq,
                  Event.rateLimit, Event.http Provider.gemini] } := by
  have h03 : (⟨0⟩ : EngineState).groq_failed_count < max_failures_before_switch := by
    decide
  simp [ask_failover, hg, hge, hfail, hsucc, h03, try_groq_trace, try_gemini]

theorem single_failover_hop_witness :
    ask_failover ⟨true, true, CallOutcome.status 500, CallOutcome.reply "hello".data⟩ ⟨0⟩ =
      { reply := "hello".data, state := ⟨1⟩,
        trace := [Event.rateLimit, Event.http Provider.groq,
                  Event.rateLimit, Event.http Provider.gemini] } :=
  single_failover_hop _ "hello".data rfl rfl (by decide) rfl

/-- C10 amended: every failure path of `check_grammar` returns the safe
error dict, whose extra `error` key carries a description of the failure;
on the success path (a provider replied and its JSON parsed as an object)
`check_grammar` adds no `error` key of its own — the returned dict's
`error` key equals the `error` field of the provider's parsed object, so in
particular it is absent whenever the provider did not supply one. -/
theorem check_grammar_error_key (env : CallEnv) (jsonLoads : Str → Except Str Json)
    (text : Str) (st : EngineState) :
    (∃ msg, (check_grammar env jsonLoads text st).1 = grammar_error_response text msg ∧
      dictLookup (check_grammar env jsonLoads text st).1 "error".data
        = some (Json.str msg)) ∨
    (∃ raw fields, provider_raw env st = some raw ∧
      jsonLoads (strip_code_fence raw) = Except.ok (Json.obj fields) ∧
      dictLookup (check_grammar env jsonLoads text st).1 "error".data
        = dictLookup fields "error".data) := by
  rcases check_grammar_shape env jsonLoads text st with ⟨msg, hm⟩ | ⟨raw, fields, hr, hok, hv⟩
  · refine Or.inl ⟨msg, hm, ?_⟩
    rw [hm]
    exact (grammar_error_response_fields text msg).2.2.2
  · refine Or.inr ⟨raw, fields, hr, hok, ?_⟩
    rw [hv]
    exact validate_grammar_json_error_key text fields

/-- C10 counterexample: when the provider's JSON itself contains an `error`
field, the success path of `check_grammar` returns a dict that still
carries an `error` key, so the key is not absent on every success path as
the original claim states. -/
theorem check_grammar_error_key_on_success :
    provider_raw ⟨true, false, CallOutcome.reply "x".data, CallOutcome.status 0⟩ ⟨0⟩
      = some "x".data ∧
    (check_grammar ⟨true, false, CallOutcome.reply "x".data, CallOutcome.status 0⟩
        (fun _ => Except.ok (Json.obj [("error".data, Json.str "oops".data)]))
        "hi".data ⟨0⟩).1 =
      [("error".data, Json.str "oops".data), ("errors".data, Json.arr []),
       ("original".data, Json.str "hi".data), ("corrected".data, Json.str "hi".data)] ∧
    dictLookup (check_grammar ⟨true, false, CallOutcome.reply "x".data, CallOutcome.status 0⟩
        (fun _ => Except.ok (Json.obj [("error".data, Json.str "oops".data)]))
        "hi".data ⟨0⟩).1 "error".data = some (Json.str "oops".data) :=
  ⟨rfl, rfl, rfl⟩

/-- C3: once the Groq failure count has reached the threshold, every call
path that selects a provider (`ask`'s failover block, `_analyse_grammar`,
`check_grammar`) skips Groq entirely — every HTTP attempt goes to Gemini —
and leaves the failure count unchanged, so the demotion persists until a
Groq success (which, Groq being skipped, can then no longer occur); and a
Groq success in the failover block resets the failure count to 0, after
which Groq is again the first provider attempted by a subsequent call,
i.e. it is restored as the preferred provider. -/
theorem groq_demotion_promotion (env : CallEnv) (st : EngineState)
    (jsonLoads : Str → Except Str Json) :
    (max_failures_before_switch ≤ st.groq_failed_count →
      (∀ p, Event.http p ∈ (ask_failover env st).trace → p = Provider.gemini) ∧
      (∀ p, Event.http p ∈ (analyse_grammar env jsonLoads st).2 → p = Provider.gemini) ∧
      (∀ text p, Event.http p ∈ (check_grammar env jsonLoads text st).2 →
        p = Provider.gemini) ∧
      (ask_failover env st).state = st) ∧
    (∀ raw, env.use_groq = true →
      st.groq_failed_count < max_failures_before_switch →
      env.groqCall = CallOutcome.reply raw →
      strContains raw groqErrorMarker = false →
      (ask_failover env st).state = ⟨0⟩ ∧
      ∀ env₂ : CallEnv, env₂.use_groq = true →
        firstHttp (ask_failover env₂ (ask_failover env st).state).trace
          = some Provider.groq) := by
  constructor
  · intro hdem
    have hcond : ¬(env.use_groq = true ∧
        st.groq_failed_count < max_failures_before_switch) := by
      rintro ⟨_, hlt⟩
      omega
    refine ⟨?_, ?_, ?_, ?_⟩
    · intro p hp
      unfold ask_failover at hp
      rw [if_neg hcond] at hp
      split at hp
      · simp only [try_gemini_trace] at hp
        simp at hp
        exact hp
      · simp at hp
    · intro p hp
      unfold analyse_grammar at hp
      rw [if_neg hcond] at hp
      split at hp
      · simp only [try_gemini_trace] at hp
        simp at hp
        exact hp
      · simp at hp
    · intro text p hp
      unfold check_grammar at hp
      rw [if_neg hcond] at hp
      split at hp
      · split at hp <;> simp_all
      · simp at hp
    · unfold ask_failover
      rw [if_neg hcond]
      split <;> rfl
  · intro raw hg hlt hreply hnofail
    have hcond : env.use_groq = true ∧
        st.groq_failed_count < max_failures_before_switch := ⟨hg, hlt⟩
    have hask : (ask_failover env st).state = ⟨0⟩ := by
      unfold ask_failover
      rw [if_pos hcond]
      have htg : try_groq env = (raw, [Event.rateLimit, Event.http Provider.groq]) := by
        simp [try_groq, hreply]
      simp [htg, hnofail]
    refine ⟨hask, ?_⟩
    intro env₂ hg₂
    rw [hask]
    have h03 : (⟨0⟩ : EngineState).groq_failed_count < max_failures_before_switch := by
      decide
    unfold ask_failover
    rw [if_pos ⟨hg₂, h03⟩]
    dsimp only
    split
    · split
      · simp [firstHttp, httpCalls, try_groq_trace, try_gemini_trace]
      · simp [firstHttp, httpCalls, try_groq_trace]
    · simp [firstHttp, httpCalls, try_groq_trace]

theorem groq_demotion_promotion_witness :
    (ask_failover ⟨true, true, CallOutcome.reply "ok".data, CallOutcome.reply "g".data⟩
        ⟨3⟩).state = ⟨3⟩ ∧
    (ask_failover ⟨true, true, CallOutcome.reply "ok".data, CallOutcome.reply "g".data⟩
        ⟨2⟩).state = ⟨0⟩ ∧
    firstHttp (ask_failover ⟨true, true, CallOutcome.reply "ok".data, CallOutcome.reply "g".data⟩
        ((ask_failover ⟨true, true, CallOutcome.reply "ok".data, CallOutcome.reply "g".data⟩
          ⟨2⟩).state)).trace = some Provider.groq :=
  ⟨((groq_demotion_promotion _ ⟨3⟩ (fun _ => Except.error [])).1 (by decide)).2.2.2,
   ((groq_demotion_promotion _ ⟨2⟩ (fun _ => Except.error [])).2 "ok".data rfl (by decide)
      rfl (by decide)).1,
   ((groq_demotion_promotion _ ⟨2⟩ (fun _ => Except.error [])).2 "ok".data rfl (by decide)
      rfl (by decide)).2 _ rfl⟩

/-- C9 amended: the conversation path (`ask`'s failover block) and the
category-analysis path (`_analyse_grammar`) reach providers only through
`_try_groq`/`_try_gemini`, so every HTTP attempt in their traces is
immediately preceded by a rate-limiter wait; the limiter itself guarantees
that the admitted call time is at least `min_interval` after the stored
last-call time and records the call time as the new timestamp.  The
grammar-correction path (`check_grammar`), however, posts directly and is
not rate limited (see the counterexample). -/
theorem rate_limited_calls (env : CallEnv) (st : EngineState)
    (jsonLoads : Str → Except Str Json) :
    httpGuarded (ask_failover env st).trace = true ∧
    httpGuarded (analyse_grammar env jsonLoads st).2 = true ∧
    ∀ last now : ℚ, min_interval ≤ (rate_limit last now).1 - last ∧
      (rate_limit last now).2 = (rate_limit last now).1 := by
  refine ⟨?_, ?_, ?_⟩
  · unfold ask_failover
    split
    · dsimp only
      split
      · split
        · simp [httpGuarded, httpGuardedAux, try_groq_trace, try_gemini_trace]
        · simp [httpGuarded, httpGuardedAux, try_groq_trace]
      · simp [httpGuarded, httpGuardedAux, try_groq_trace]
    · split
      · simp [httpGuarded, httpGuardedAux, try_gemini_trace]
      · simp [httpGuarded, httpGuardedAux]
  · unfold analyse_grammar
    split
    · simp [httpGuarded, httpGuardedAux, try_groq_trace]
    · split
      · simp [httpGuarded, httpGuardedAux, try_gemini_trace]
      · simp [httpGuarded, httpGuardedAux]
  · intro last now
    constructor
    · unfold rate_limit min_interval
      dsimp only
      split
      · have : now + (1 - (now - last)) - last = 1 := by ring
        rw [this]
      · rename_i h
        have := le_of_not_lt h
        unfold min_interval at this
        linarith
    · unfold rate_limit
      rfl

/-- C9 counterexample: `check_grammar` issues an outbound provider HTTP
call whose trace contains no rate-limiter wait at all, so not every
outbound call of the orchestration layer is preceded by the shared
rate-limiter wait. -/
theorem check_grammar_skips_rate_limiter :
    (check_grammar ⟨true, false, CallOutcome.reply "ok".data, CallOutcome.status 0⟩
        (fun _ => Except.error "e".data) "hi".data ⟨0⟩).2
      = [Event.http Provider.groq] ∧
    httpGuarded (check_grammar ⟨true, false, CallOutcome.reply "ok".data, CallOutcome.status 0⟩
        (fun _ => Except.error "e".data) "hi".data ⟨0⟩).2 = false :=
  ⟨rfl, rfl⟩

/-! ## Fence invariance (C8) -/

/-- Wrapping a payload in a fenced code block: a first line starting with
the fence marker and a last line starting with the fence marker. -/
def fenceWrap (j : Str) : Str :=
  "```json\n".data ++ j ++ "\n```".data

theorem splitNl_ne_nil (s : Str) : splitNl s ≠ [] := by
  cases s with
  | nil => simp [splitNl]
  | cons c rest =>
    unfold splitNl
    split
    · simp
    · split <;> simp

theorem splitNl_no_nl (b : Str) (h : '\n' ∉ b) : splitNl b = [b] := by
  induction b with
  | nil => rfl
  | cons c rest ih =>
    have hc : ¬c = '\n' := fun hcc => h (hcc ▸ List.mem_cons_self c rest)
    have hrest : '\n' ∉ rest := fun hm => h (List.mem_cons_of_mem c hm)
    unfold splitNl
    rw [if_neg hc, ih hrest]

theorem splitNl_head_append (a : Str) (ha : '\n' ∉ a) (b : Str) :
    splitNl (a ++ '\n' :: b) = a :: splitNl b := by
  induction a with
  | nil => simp [splitNl]
  | cons c rest ih =>
    have hc : ¬c = '\n' := fun hcc => ha (hcc ▸ List.mem_cons_self c rest)
    have hrest : '\n' ∉ rest := fun hm => ha (List.mem_cons_of_mem c hm)
    show splitNl (c :: (rest ++ '\n' :: b)) = (c :: rest) :: splitNl b
    unfold splitNl
    rw [if_neg hc, ih hrest]
    simp only [List.cons.injEq, true_and]
    exact splitNl.eq_def b

theorem splitNl_last_append (j : Str) (b : Str) (hb : '\n' ∉ b) :
    splitNl (j ++ '\n' :: b) = splitNl j ++ [b] := by
  induction j with
  | nil => simp [splitNl, splitNl_no_nl b hb]
  | cons c rest ih =>
    show splitNl (c :: (rest ++ '\n' :: b)) = splitNl (c :: rest) ++ [b]
    by_cases hc : c = '\n'
    · subst hc
      unfold splitNl
      rw [if_pos rfl, if_pos rfl, ih]
      simp
    · obtain ⟨hd, tl, hsplit⟩ : ∃ hd tl, splitNl rest = hd :: tl := by
        cases hs : splitNl rest with
        | nil => exact absurd hs (splitNl_ne_nil rest)
        | cons hd tl => exact ⟨hd, tl, rfl⟩
      unfold splitNl
      rw [if_neg hc, if_neg hc, ih, hsplit]
      simp

theorem joinNl_splitNl (j : Str) : joinNl (splitNl j) = j := by
  induction j with
  | nil => rfl
  | cons c rest ih =>
    obtain ⟨hd, tl, hsplit⟩ : ∃ hd tl, splitNl rest = hd :: tl := by
      cases hs : splitNl rest with
      | nil => exact absurd hs (splitNl_ne_nil rest)
      | cons hd tl => exact ⟨hd, tl, rfl⟩
    rw [hsplit] at ih
    by_cases hc : c = '\n'
    · subst hc
      unfold splitNl
      rw [if_pos rfl, hsplit]
      show ([] : Str) ++ '\n' :: joinNl (hd :: tl) = '\n' :: rest
      rw [ih]
      rfl
    · unfold splitNl
      rw [if_neg hc, hsplit]
      cases tl with
      | nil =>
        show c :: hd = c :: rest
        simp only [joinNl] at ih
        rw [ih]
      | cons x xs =>
        show (c :: hd) ++ '\n' :: joinNl (x :: xs) = c :: rest
        rw [List.cons_append]
        show c :: (hd ++ '\n' :: joinNl (x :: xs)) = c :: rest
        rw [show hd ++ '\n' :: joinNl (x :: xs) = joinNl (hd :: x :: xs) from rfl, ih]

theorem pyStrip_fenceWrap (j : Str) : pyStrip (fenceWrap j) = fenceWrap j := by
  have hfront : List.dropWhile Char.isWhitespace (fenceWrap j) = fenceWrap j := by
    show List.dropWhile Char.isWhitespace ("```json\n".data ++ j ++ "\n```".data) = _
    rw [List.append_assoc, List.dropWhile_append,
        show List.dropWhile Char.isWhitespace ("```json\n".data) = "```json\n".data by decide]
    simp [fenceWrap, List.append_assoc]
  have hback : List.dropWhile Char.isWhitespace (fenceWrap j).reverse
      = (fenceWrap j).reverse := by
    show List.dropWhile Char.isWhitespace (("```json\n".data ++ j ++ "\n```".data).reverse) = _
    rw [List.reverse_append, List.dropWhile_append,
        show List.dropWhile Char.isWhitespace (("\n```".data : Str).reverse)
          = ("\n```".data : Str).reverse by decide]
    simp [fenceWrap]
  unfold pyStrip
  rw [hfront, hback, List.reverse_reverse]

theorem fenceMarker_isPrefixOf_fenceWrap (j : Str) :
    fenceMarker.isPrefixOf (fenceWrap j) = true := by
  rw [List.isPrefixOf_iff_prefix]
  have h1 : (fenceMarker : Str) <+: "```json\n".data := by decide
  have h2 : ("```json\n".data : Str) <+: fenceWrap j := by
    show ("```json\n".data : Str) <+: "```json\n".data ++ j ++ "\n```".data
    rw [List.append_assoc]
    exact List.prefix_append _ _
  exact h1.trans h2

/-- Fence stripping undoes fence wrapping: for any payload whose stripped
form does not itself begin with a fence marker (true of every JSON
payload, since JSON text never starts with a backtick),
`_strip_code_fence` applied to the fenced block returns exactly what it
returns on the bare payload. -/
theorem strip_code_fence_fenceWrap (j : Str)
    (h : fenceMarker.isPrefixOf (pyStrip j) = false) :
    strip_code_fence (fenceWrap j) = strip_code_fence j := by
  have hne2 : fenceWrap j ≠ [] := by
    unfold fenceWrap
    simp
  have hne : ¬((fenceWrap j).getLast? = some '\n') := by
    show ¬((("```json\n".data ++ j ++ "\n```".data)).getLast? = some '\n')
    rw [List.getLast?_append, Option.or_of_isSome (by decide)]
    decide
  have hdecomp : fenceWrap j = "```json".data ++ ('\n' :: (j ++ '\n' :: "```".data)) := by
    show "```json\n".data ++ j ++ "\n```".data = _
    rw [show ("```json\n".data : Str) = "```json".data ++ ['\n'] by decide,
        show ("\n```".data : Str) = '\n' :: "```".data by decide]
    simp [List.append_assoc]
  have hsplit : pySplitlines (fenceWrap j)
      = "```json".data :: (splitNl j ++ ["```".data]) := by
    unfold pySplitlines
    rw [if_neg hne2, if_neg hne, hdecomp, splitNl_head_append _ (by decide) _,
        splitNl_last_append _ _ (by decide)]
  have hfirst : stripFirstFence ("```json".data :: (splitNl j ++ ["```".data]))
      = splitNl j ++ ["```".data] := by
    unfold stripFirstFence
    rw [if_pos ⟨by simp,
      show fenceMarker.isPrefixOf
          (("```json".data : Str) :: (splitNl j ++ ["```".data])).headI = true by rfl⟩]
    rfl
  have hlast : stripLastFence (splitNl j ++ ["```".data]) = splitNl j := by
    unfold stripLastFence
    rw [if_pos ⟨by simp, by rw [List.getLast?_concat]; decide⟩]
    exact List.dropLast_concat
  unfold strip_code_fence
  rw [pyStrip_fenceWrap, fenceMarker_isPrefixOf_fenceWrap, if_pos rfl, h]
  rw [if_neg (by simp)]
  rw [hsplit, hfirst, hlast, joinNl_splitNl]

/-- C8: for every JSON payload `j` — formalized as any string whose
stripped form does not itself begin with the fence marker, which holds of
all JSON payloads since JSON text never starts with a backtick — running
the extractor on `j` wrapped in a fenced code block yields the same
analysis as running it on the bare `j`: stripping removes exactly the
first and last fence lines, keeps the interior and trims whitespace, so
extraction is invariant under fencing (for every parse function). -/
theorem analyse_extract_fence_invariant (jsonLoads : Str → Except Str Json)
    (j : Str) (h : fenceMarker.isPrefixOf (pyStrip j) = false) :
    strip_code_fence (fenceWrap j) = strip_code_fence j ∧
    analyse_extract jsonLoads (fenceWrap j) = analyse_extract jsonLoads j := by
  have hs := strip_code_fence_fenceWrap j h
  refine ⟨hs, ?_⟩
  unfold analyse_extract analyse_body
  rw [hs]

theorem analyse_extract_fence_invariant_witness :
    strip_code_fence (fenceWrap "[1, 2]".data) = strip_code_fence "[1, 2]".data ∧
    analyse_extract (fun _ => Except.error "x".data) (fenceWrap "[1, 2]".data)
      = analyse_extract (fun _ => Except.error "x".data) "[1, 2]".data :=
  analyse_extract_fence_invariant (fun _ => Except.error "x".data) "[1, 2]".data
    (by decide)

end AiTutor
